import Mathlib

/-!
Verification of the offline-first synchronization and caching subsystem of a
goal-tracking progressive web application.  The definitions below are a
shallow embedding of the source code:

* the React component state and its handlers (fetchResolutions,
  syncPendingUpdates, updateProgress, getDemoData, getProgress, and the
  storage-mirroring effects) from src/src/ResolutionTracker.jsx;
* the service-worker routing, caching strategies, activation cleanup and
  background sync from src/public/service-worker.js.

Remote calls and ambient values (the current date, timestamps, network
results) are passed as explicit parameters; a remote call that the code
observes as null or a thrown fetch is an Option that is none.
-/

namespace ResTracker

/-- Sync status values used by the component: synced, syncing, offline,
error and demo. -/
inductive SyncStatus where
  | synced
  | syncing
  | offline
  | error
  | demo
  deriving DecidableEq, Repr

/-- A goal record as held in component state.  Numeric fields are modelled
as rationals; notionPageId is none for the JavaScript null. -/
structure Resolution where
  id : String
  title : String
  category : String
  target : ℚ
  current : ℚ
  unit : String
  frequency : String
  streak : Int
  lastCheckin : String
  notionPageId : Option String
  deriving DecidableEq, Repr

/-- A queued pending update: pageId, the updates payload (current and
lastCheckin) and the Date.now() timestamp taken at enqueue time. -/
structure PendingUpdate where
  pageId : String
  current : ℚ
  lastCheckin : String
  timestamp : Int
  deriving DecidableEq, Repr

/-- A remote PATCH issued by notionService.updateResolution: the page id
and the fields sent. -/
structure RemoteCall where
  pageId : String
  current : ℚ
  lastCheckin : String
  deriving DecidableEq, Repr

/-- The component state relevant to the sync subsystem. -/
structure AppState where
  resolutions : List Resolution
  pendingUpdates : List PendingUpdate
  syncStatus : SyncStatus
  isOnline : Bool
  isLoading : Bool
  isSyncing : Bool
  deriving DecidableEq, Repr

/-- The five placeholder records returned by getDemoData; every
notionPageId is null. -/
def getDemoData : List Resolution :=
  [ { id := "demo-1", title := "Read 24 books", category := "Personal Growth",
      target := 24, current := 3, unit := "books", frequency := "yearly",
      streak := 12, lastCheckin := "2026-01-05", notionPageId := none },
    { id := "demo-2", title := "Exercise 4x per week", category := "Health",
      target := 4, current := 3, unit := "sessions", frequency := "weekly",
      streak := 8, lastCheckin := "2026-01-06", notionPageId := none },
    { id := "demo-3", title := "Save $10,000", category := "Finance",
      target := 10000, current := 850, unit := "dollars", frequency := "yearly",
      streak := 7, lastCheckin := "2026-01-01", notionPageId := none },
    { id := "demo-4", title := "Meditate daily", category := "Wellness",
      target := 7, current := 7, unit := "days", frequency := "weekly",
      streak := 21, lastCheckin := "2026-01-07", notionPageId := none },
    { id := "demo-5", title := "Learn Spanish", category := "Personal Growth",
      target := 30, current := 12, unit := "lessons", frequency := "monthly",
      streak := 5, lastCheckin := "2026-01-06", notionPageId := none } ]

/-- getProgress: Math.min(current / target * 100, 100), the displayed
percentage. -/
def getProgress (r : Resolution) : ℚ :=
  min (r.current / r.target * 100) 100

/-- The demo-or-offline fallback branch of fetchResolutions, taken when the
remote fetch failed or returned an empty array: if the cached collection is
missing or empty, substitute demo data with status demo, otherwise keep the
collection and report offline. -/
def fetchFallback (s : AppState) (cached : Option (List Resolution)) : AppState :=
  match cached with
  | none => { s with resolutions := getDemoData, syncStatus := SyncStatus.demo }
  | some c =>
    if c.length = 0 then
      { s with resolutions := getDemoData, syncStatus := SyncStatus.demo }
    else
      { s with syncStatus := SyncStatus.offline }

/-- fetchResolutions: remoteData is the result of the List call (none when
the fetch failed), cached is storage.get of the resolutions key. -/
def fetchResolutions (s : AppState) (remoteData : Option (List Resolution))
    (cached : Option (List Resolution)) : AppState :=
  if !s.isOnline then
    { s with isLoading := false, syncStatus := SyncStatus.offline }
  else
    let s2 :=
      match remoteData with
      | some data =>
        if data.length > 0 then
          { s with resolutions := data, syncStatus := SyncStatus.synced }
        else
          fetchFallback s cached
      | none => fetchFallback s cached
    { s2 with isLoading := false }

/-- The failed-collection loop of syncPendingUpdates: walk the queue in
order, the update at overall position i is pushed onto failed exactly when
its remote call returns null (ok i is false). -/
def collectFailed (ok : Nat → Bool) : Nat → List PendingUpdate → List PendingUpdate
  | _, [] => []
  | i, u :: rest =>
    if ok i then collectFailed ok (i + 1) rest
    else u :: collectFailed ok (i + 1) rest

/-- syncPendingUpdates: drains the queue, keeping exactly the failed
updates, setting status error on any failure and synced otherwise, and
refreshing from the remote store after a fully successful drain.  Returns
the new state together with the list of updates that were replayed (each
queued update is replayed exactly once). -/
def syncPendingUpdates (s : AppState) (ok : Nat → Bool)
    (remoteData cached : Option (List Resolution)) :
    AppState × List PendingUpdate :=
  if s.pendingUpdates.length = 0 then (s, [])
  else
    let failed := collectFailed ok 0 s.pendingUpdates
    let s1 := { s with
                pendingUpdates := failed
                isSyncing := false
                syncStatus := (if failed.length > 0 then SyncStatus.error
                               else SyncStatus.synced) }
    if failed.length = 0 then (fetchResolutions s1 remoteData cached, s.pendingUpdates)
    else (s1, s.pendingUpdates)

/-- The optimistic local mutation of updateProgress: replace current and
lastCheckin on every record whose id matches. -/
def applyLocalMutation (s : AppState) (id : String) (v : ℚ) (t : String) : AppState :=
  { s with resolutions := s.resolutions.map (fun r =>
      if r.id == id then { r with current := v, lastCheckin := t } else r) }

/-- updateProgress: find the record, clamp the new current at 0, mutate
locally, then either call the remote store (online) or enqueue a pending
update (offline).  The notionPageId guard is the JavaScript truthiness
test, so a null or empty id skips all remote interaction.  remoteOk models
whether the awaited remote call returned a non-null result; the emitted
RemoteCall (if any) is returned alongside the new state. -/
def updateProgress (s : AppState) (id : String) (increment : ℚ)
    (today : String) (now : Int) (remoteOk : Bool) :
    AppState × Option RemoteCall :=
  match s.resolutions.find? (fun r => r.id == id) with
  | none => (s, none)
  | some resolution =>
    let newCurrent := max 0 (resolution.current + increment)
    let s1 := applyLocalMutation s id newCurrent today
    match resolution.notionPageId with
    | none => (s1, none)
    | some pid =>
      if pid == "" then (s1, none)
      else if s.isOnline then
        ({ s1 with syncStatus := if remoteOk then SyncStatus.synced
                                 else SyncStatus.error },
         some { pageId := pid, current := newCurrent, lastCheckin := today })
      else
        ({ s1 with
             pendingUpdates := s1.pendingUpdates ++
               [{ pageId := pid, current := newCurrent, lastCheckin := today,
                  timestamp := now }]
             syncStatus := SyncStatus.offline },
         none)

/-- A sequence of offline increment or decrement actions on one record:
every action goes through updateProgress with the connectivity flag as held
in the state (remoteOk is irrelevant offline and passed as false). -/
def applyOffline (s : AppState) (id today : String) (now : Int) :
    List ℚ → AppState
  | [] => s
  | i :: rest => applyOffline (updateProgress s id i today now false).1 id today now rest

/-- The local value of the current field after a list of clamped
increments. -/
def localAfter (c : ℚ) (incs : List ℚ) : ℚ :=
  incs.foldl (fun a i => max 0 (a + i)) c

/-- The pending updates appended by a sequence of offline actions: one per
action, each carrying the absolute local value at its enqueue time. -/
def enqueueTrace (pid today : String) (now : Int) (c : ℚ) :
    List ℚ → List PendingUpdate
  | [] => []
  | i :: rest =>
    { pageId := pid, current := max 0 (c + i), lastCheckin := today,
      timestamp := now } :: enqueueTrace pid today now (max 0 (c + i)) rest

/-- Running a list of mutation actions (id, increment, today, now,
remoteOk) through updateProgress, collecting every emitted remote call. -/
def runActions : AppState → List (String × ℚ × String × Int × Bool) →
    AppState × List RemoteCall
  | s, [] => (s, [])
  | s, a :: rest =>
    let step := updateProgress s a.1 a.2.1 a.2.2.1 a.2.2.2.1 a.2.2.2.2
    let tail := runActions step.1 rest
    (tail.1, step.2.toList ++ tail.2)

/-- The durable key-value mirror: the two slots written by the component
effects. -/
structure LocalStore where
  resolutions : Option (List Resolution)
  pendingUpdates : Option (List PendingUpdate)
  deriving DecidableEq, Repr

/-- The useEffect mirroring the resolutions list: storage.set only fires
when the list is non-empty. -/
def mirrorResolutions (rs : List Resolution) (st : LocalStore) : LocalStore :=
  if rs.length > 0 then { st with resolutions := some rs } else st

/-- The useEffect mirroring the pending-update queue: storage.set fires on
every change. -/
def mirrorPendingUpdates (q : List PendingUpdate) (st : LocalStore) : LocalStore :=
  { st with pendingUpdates := some q }

/-- The current static cache generation name. -/
def STATIC_CACHE : String := "static-v1"

/-- The current dynamic cache generation name. -/
def DYNAMIC_CACHE : String := "dynamic-v1"

/-- The fixed manifest of assets cached on install. -/
def STATIC_ASSETS : List String :=
  [ "/", "/index.html", "/manifest.json", "/styles.css", "/app.js",
    "/icons/icon-192.png", "/icons/icon-512.png",
    "https://fonts.googleapis.com/css2?family=Inter:wght@400;500;600;700;800&display=swap" ]

/-- The API endpoints routed network-first. -/
def API_ENDPOINTS : List String :=
  [ "/api/resolutions", "/api/user" ]

/-- A captured HTTP response: status code and body. -/
structure SWResponse where
  status : Nat
  body : String
  deriving DecidableEq, Repr

/-- The ok flag of a response: a 2xx status. -/
def SWResponse.ok (r : SWResponse) : Bool :=
  decide (200 ≤ r.status) && decide (r.status < 300)

/-- An intercepted request: URL pathname and the accept header, none when
absent. -/
structure SWRequest where
  url : String
  accept : Option String
  deriving DecidableEq, Repr

/-- One named cache: entries keyed by request URL. -/
def Cache := List (String × SWResponse)

/-- The cache storage: named cache generations in creation order. -/
def CacheStorage := List (String × Cache)

/-- cache.match within one cache: first entry for the URL. -/
def cacheMatch (c : Cache) (url : String) : Option SWResponse :=
  (c.find? (fun e => e.1 == url)).map (fun e => e.2)

/-- caches.match: search every cache generation in order. -/
def cachesMatch (store : CacheStorage) (url : String) : Option SWResponse :=
  match store with
  | [] => none
  | c :: rest =>
    match cacheMatch c.2 url with
    | some r => some r
    | none => cachesMatch rest url

/-- cache.put on one cache: replace any entry for the URL. -/
def cachePut (c : Cache) (url : String) (resp : SWResponse) : Cache :=
  (url, resp) :: c.filter (fun e => !(e.1 == url))

/-- caches.open followed by put: write into the named generation, creating
it if absent. -/
def cachesOpenPut (store : CacheStorage) (name url : String)
    (resp : SWResponse) : CacheStorage :=
  match store with
  | [] => [(name, cachePut [] url resp)]
  | c :: rest =>
    if c.1 == name then (c.1, cachePut c.2 url resp) :: rest
    else c :: cachesOpenPut rest name url resp

/-- Character-list test that pat is an initial segment of s. -/
def startsAux : List Char → List Char → Bool
  | [], _ => true
  | _ :: _, [] => false
  | a :: pr, b :: rest => a == b && startsAux pr rest

/-- Character-list test that pat occurs somewhere in s. -/
def containsAux (pat : List Char) : List Char → Bool
  | [] => startsAux pat []
  | b :: rest => startsAux pat (b :: rest) || containsAux pat rest

/-- The JavaScript startsWith test on strings. -/
def strStartsWith (s pat : String) : Bool :=
  startsAux pat.data s.data

/-- The JavaScript anchored ends-with test on strings. -/
def strEndsWith (s pat : String) : Bool :=
  startsAux pat.data.reverse s.data.reverse

/-- The JavaScript includes test on strings. -/
def strContains (s pat : String) : Bool :=
  containsAux pat.data s.data

/-- Does the accept header value contain text/html, as the includes call
in the source. -/
def acceptsHtml : Option String → Bool
  | none => false
  | some a => strContains a "text/html"

/-- Does the pathname end in a recognized static-asset extension, as the
anchored regular expression in the fetch listener. -/
def isStaticExtension (path : String) : Bool :=
  [".js", ".css", ".png", ".jpg", ".jpeg", ".svg", ".woff", ".woff2"].any
    (fun e => strEndsWith path e)

/-- The caching strategies applied by the fetch listener. -/
inductive Strategy where
  | networkFirst
  | cacheFirst
  | staleWhileRevalidate
  deriving DecidableEq, Repr

/-- The fetch listener routing: non-GET requests get no strategy at all;
otherwise the first matching rule wins — API prefix, then static asset,
then HTML accept, then the default. -/
def routeRequest (method path : String) (accept : Option String) :
    Option Strategy :=
  if method != "GET" then none
  else if API_ENDPOINTS.any (fun e => strStartsWith path e) then
    some Strategy.networkFirst
  else if STATIC_ASSETS.contains path || isStaticExtension path then
    some Strategy.cacheFirst
  else if acceptsHtml accept then some Strategy.networkFirst
  else some Strategy.staleWhileRevalidate

/-- The synthetic JSON body returned by networkFirst when fully offline on
a non-HTML request. -/
def offlineJsonBody : String := "\x7b\"error\":\"Offline\"\x7d"

/-- networkFirst: netResult is none when the fetch threw.  On success a
2xx copy is stored in the dynamic generation; on failure fall back to any
cached entry; with none, an HTML request gets whatever the cache holds for
the offline page URL, and any other request a synthetic 503 JSON body. -/
def networkFirst (req : SWRequest) (netResult : Option SWResponse)
    (store : CacheStorage) : Option SWResponse × CacheStorage :=
  match netResult with
  | some response =>
    (some response,
     if response.ok then cachesOpenPut store DYNAMIC_CACHE req.url response
     else store)
  | none =>
    match cachesMatch store req.url with
    | some cached => (some cached, store)
    | none =>
      if acceptsHtml req.accept then (cachesMatch store "/offline.html", store)
      else (some { status := 503, body := offlineJsonBody }, store)

/-- The activate listener: delete every cache generation whose name is
neither the static nor the dynamic generation name. -/
def activateCleanup (store : CacheStorage) : CacheStorage :=
  store.filter (fun c => c.1 == STATIC_CACHE || c.1 == DYNAMIC_CACHE)

/-- caches.open(name) viewed as a lookup: the entries of the named
generation, none when the generation does not exist. -/
def cachesGet (store : CacheStorage) (name : String) : Option Cache :=
  (store.find? (fun c => c.1 == name)).map (fun c => c.2)

/-- A pending update as stored in the service-worker IndexedDB queue. -/
structure SWPendingUpdate where
  id : Nat
  payload : String
  deriving DecidableEq, Repr

/-- The background-sync drain syncResolutions: for each queued update the
PATCH is awaited, then the update is deleted from the store.  A fetch that
throws (net gives none) aborts the loop before deleting the current
update, leaving it and all later updates queued, and the sync fails; a
fetch that resolves deletes the update whatever the response status is.
Returns the remaining queue and whether the drain completed. -/
def syncResolutions (net : SWPendingUpdate → Option SWResponse) :
    List SWPendingUpdate → List SWPendingUpdate × Bool
  | [] => ([], true)
  | u :: rest =>
    match net u with
    | none => (u :: rest, false)
    | some _ => syncResolutions net rest

/-- A sample remote-backed record for concrete instantiations. -/
def sampleRes : Resolution :=
  { id := "r1", title := "Run", category := "Health", target := 10, current := 2,
    unit := "runs", frequency := "weekly", streak := 0, lastCheckin := "2026-01-01",
    notionPageId := some "p1" }

/-- A sample offline state holding the sample record and an empty queue. -/
def sampleOffline : AppState :=
  { resolutions := [sampleRes], pendingUpdates := [], syncStatus := SyncStatus.offline,
    isOnline := false, isLoading := false, isSyncing := false }

/-- A sample online state holding the sample record and an empty queue. -/
def sampleOnline : AppState :=
  { resolutions := [sampleRes], pendingUpdates := [], syncStatus := SyncStatus.synced,
    isOnline := true, isLoading := false, isSyncing := false }

/-- A sample two-element pending queue. -/
def sampleQueue : List PendingUpdate :=
  [ { pageId := "p1", current := 3, lastCheckin := "2026-01-08", timestamp := 1 },
    { pageId := "p1", current := 4, lastCheckin := "2026-01-08", timestamp := 2 } ]

/-- A sample online state about to drain the sample queue. -/
def sampleSyncState : AppState :=
  { resolutions := [sampleRes], pendingUpdates := sampleQueue,
    syncStatus := SyncStatus.offline, isOnline := true, isLoading := false,
    isSyncing := false }

/-- The cache storage right after install: only the static generation,
seeded with the static asset manifest. -/
def seededStatic : CacheStorage :=
  [(STATIC_CACHE, STATIC_ASSETS.map (fun u => (u, { status := 200, body := "" })))]

/-- A sample cache storage holding a superseded generation next to the two
current ones. -/
def sampleStore : CacheStorage :=
  [ ("static-v0", [("/", { status := 200, body := "old" })]),
    (STATIC_CACHE, [("/", { status := 200, body := "new" })]),
    (DYNAMIC_CACHE, []) ]

/-- A sample durable store with a previously mirrored collection. -/
def sampleLocalStore : LocalStore :=
  { resolutions := some [sampleRes], pendingUpdates := some [] }

/-! Helper lemmas about the embedded operations. -/

theorem find?_map_update (l : List Resolution) (id : String) (v : ℚ) (t : String)
    (r : Resolution) (h : l.find? (fun q => q.id == id) = some r) :
    (l.map (fun q => if q.id == id then { q with current := v, lastCheckin := t }
                     else q)).find? (fun q => q.id == id)
      = some { r with current := v, lastCheckin := t } := by
  induction l with
  | nil => simp [List.find?] at h
  | cons a l ih =>
    simp only [List.map_cons]
    by_cases ha : (a.id == id) = true
    · rw [@List.find?_cons_of_pos _ (fun q => q.id == id) a l ha] at h
      injection h with h
      subst h
      rw [if_pos ha]
      exact @List.find?_cons_of_pos _ (fun q => q.id == id)
        { a with current := v, lastCheckin := t } _ ha
    · rw [@List.find?_cons_of_neg _ (fun q => q.id == id) a l ha] at h
      rw [if_neg ha]
      rw [@List.find?_cons_of_neg _ (fun q => q.id == id) a _ ha]
      exact ih h

theorem applyLocalMutation_find? (s : AppState) (id : String) (v : ℚ) (t : String)
    (r : Resolution) (h : s.resolutions.find? (fun q => q.id == id) = some r) :
    (applyLocalMutation s id v t).resolutions.find? (fun q => q.id == id)
      = some { r with current := v, lastCheckin := t } :=
  find?_map_update s.resolutions id v t r h

theorem enqueueTrace_length (pid today : String) (now : Int) (c : ℚ)
    (incs : List ℚ) :
    (enqueueTrace pid today now c incs).length = incs.length := by
  induction incs generalizing c with
  | nil => rfl
  | cons i rest ih => simp [enqueueTrace, ih]

theorem enqueueTrace_getLast? (pid today : String) (now : Int) (c : ℚ)
    (incs : List ℚ) (h : incs ≠ []) :
    (enqueueTrace pid today now c incs).getLast?
      = some { pageId := pid, current := localAfter c incs,
               lastCheckin := today, timestamp := now } := by
  induction incs generalizing c with
  | nil => exact absurd rfl h
  | cons i rest ih =>
    cases rest with
    | nil => simp [enqueueTrace, localAfter]
    | cons j rest2 =>
      rw [show enqueueTrace pid today now c (i :: j :: rest2)
            = { pageId := pid, current := max 0 (c + i), lastCheckin := today,
                timestamp := now } :: enqueueTrace pid today now (max 0 (c + i))
                  (j :: rest2) from rfl]
      rw [show enqueueTrace pid today now (max 0 (c + i)) (j :: rest2)
            = { pageId := pid, current := max 0 (max 0 (c + i) + j),
                lastCheckin := today, timestamp := now }
              :: enqueueTrace pid today now (max 0 (max 0 (c + i) + j)) rest2
            from rfl]
      rw [List.getLast?_cons_cons]
      rw [show ({ pageId := pid, current := max 0 (max 0 (c + i) + j),
                  lastCheckin := today, timestamp := now }
                :: enqueueTrace pid today now (max 0 (max 0 (c + i) + j)) rest2)
            = enqueueTrace pid today now (max 0 (c + i)) (j :: rest2) from rfl]
      rw [ih (max 0 (c + i)) (by simp)]
      rfl

theorem collectFailed_all_ok (ok : Nat → Bool) (n : Nat)
    (q : List PendingUpdate) (h : ∀ i, ok i = true) :
    collectFailed ok n q = [] := by
  induction q generalizing n with
  | nil => rfl
  | cons u rest ih => simp [collectFailed, h n, ih]

theorem collectFailed_eq_enumFrom (ok : Nat → Bool) (n : Nat)
    (q : List PendingUpdate) :
    collectFailed ok n q
      = ((q.enumFrom n).filter (fun p => !ok p.1)).map Prod.snd := by
  induction q generalizing n with
  | nil => rfl
  | cons u rest ih =>
    by_cases h : ok n = true
    · simp [collectFailed, List.enumFrom, h, ih]
    · simp only [Bool.not_eq_true] at h
      simp [collectFailed, List.enumFrom, h, ih]

theorem collectFailed_ne_nil (ok : Nat → Bool) (n : Nat)
    (q : List PendingUpdate) (i : Nat) (hi : i < q.length)
    (hf : ok (n + i) = false) :
    collectFailed ok n q ≠ [] := by
  induction q generalizing n i with
  | nil => exact absurd hi (by simp)
  | cons u rest ih =>
    cases i with
    | zero =>
      simp only [Nat.add_zero] at hf
      simp [collectFailed, hf]
    | succ k =>
      by_cases h : ok n = true
      · simp only [collectFailed, h, if_true]
        exact ih (n + 1) k (Nat.lt_of_succ_lt_succ hi)
          (by rw [show n + 1 + k = n + (k + 1) by omega]; exact hf)
      · simp only [Bool.not_eq_true] at h
        simp [collectFailed, h]

theorem fetchResolutions_pendingUpdates (s : AppState)
    (remoteData cached : Option (List Resolution)) :
    (fetchResolutions s remoteData cached).pendingUpdates = s.pendingUpdates := by
  unfold fetchResolutions fetchFallback
  cases s.isOnline with
  | false => simp
  | true =>
    cases remoteData with
    | none =>
      cases cached with
      | none => simp
      | some c => by_cases hc : c.length = 0 <;> simp [hc]
    | some data =>
      by_cases hd : data.length > 0
      · simp [hd]
      · cases cached with
        | none => simp [hd]
        | some c => by_cases hc : c.length = 0 <;> simp [hd, hc]

theorem updateProgress_offline_step (s : AppState) (id pid today : String)
    (now : Int) (i : ℚ) (r : Resolution)
    (hoff : s.isOnline = false)
    (hfind : s.resolutions.find? (fun q => q.id == id) = some r)
    (hpid : r.notionPageId = some pid) (hpe : (pid == "") = false) :
    (updateProgress s id i today now false).1
      = { applyLocalMutation s id (max 0 (r.current + i)) today with
          pendingUpdates := s.pendingUpdates ++
            [{ pageId := pid, current := max 0 (r.current + i),
               lastCheckin := today, timestamp := now }]
          syncStatus := SyncStatus.offline } := by
  unfold updateProgress
  simp only [hfind, hpid, hpe, hoff]
  rfl

theorem updateProgress_resolutions_eq (s : AppState) (id today : String)
    (now : Int) (okb : Bool) (i : ℚ) (r : Resolution)
    (hfind : s.resolutions.find? (fun q => q.id == id) = some r) :
    (updateProgress s id i today now okb).1.resolutions
      = (applyLocalMutation s id (max 0 (r.current + i)) today).resolutions := by
  unfold updateProgress
  simp only [hfind]
  cases hp : r.notionPageId with
  | none => rfl
  | some pid =>
    by_cases hpe : (pid == "") = true
    · simp [hpe]
    · cases hon : s.isOnline <;> simp [hpe, hon]

theorem applyOffline_spec (incs : List ℚ) (s : AppState) (id pid today : String)
    (now : Int) (r : Resolution)
    (hoff : s.isOnline = false)
    (hfind : s.resolutions.find? (fun q => q.id == id) = some r)
    (hpid : r.notionPageId = some pid)
    (hpe : (pid == "") = false) :
    (applyOffline s id today now incs).pendingUpdates
        = s.pendingUpdates ++ enqueueTrace pid today now r.current incs
    ∧ (applyOffline s id today now incs).isOnline = false
    ∧ ∃ r', (applyOffline s id today now incs).resolutions.find?
            (fun q => q.id == id) = some r'
         ∧ r'.current = localAfter r.current incs
         ∧ r'.notionPageId = some pid := by
  induction incs generalizing s r with
  | nil =>
    refine ⟨by simp [applyOffline, enqueueTrace], hoff, r, hfind, ?_, hpid⟩
    simp [localAfter]
  | cons i rest ih =>
    have hstep := updateProgress_offline_step s id pid today now i r hoff hfind hpid hpe
    have h1on : (updateProgress s id i today now false).1.isOnline = false := by
      rw [hstep]; exact hoff
    have h1find : (updateProgress s id i today now false).1.resolutions.find?
        (fun q => q.id == id)
        = some { r with current := max 0 (r.current + i), lastCheckin := today } := by
      rw [hstep]
      exact applyLocalMutation_find? s id _ today r hfind
    have h1q : (updateProgress s id i today now false).1.pendingUpdates
        = s.pendingUpdates ++
          [{ pageId := pid, current := max 0 (r.current + i),
             lastCheckin := today, timestamp := now }] := by
      rw [hstep]
    obtain ⟨hq, hon, r', hfind', hcur, hpid'⟩ :=
      ih (updateProgress s id i today now false).1
        { r with current := max 0 (r.current + i), lastCheckin := today }
        h1on h1find (by simpa using hpid)
    refine ⟨?_, hon, r', hfind', ?_, hpid'⟩
    · show (applyOffline (updateProgress s id i today now false).1
          id today now rest).pendingUpdates = _
      rw [hq, h1q, List.append_assoc]
      rfl
    · exact hcur

theorem syncPendingUpdates_all_ok (s : AppState)
    (remoteData cached : Option (List Resolution)) :
    (syncPendingUpdates s (fun _ => true) remoteData cached).1.pendingUpdates = [] := by
  unfold syncPendingUpdates
  by_cases h : s.pendingUpdates.length = 0
  · simpa [h] using List.length_eq_zero.mp h
  · have hcf : collectFailed (fun _ => true) 0 s.pendingUpdates = [] :=
      collectFailed_all_ok _ 0 _ (fun _ => rfl)
    simp [h, hcf, fetchResolutions_pendingUpdates]

theorem syncPendingUpdates_calls (s : AppState) (ok : Nat → Bool)
    (remoteData cached : Option (List Resolution)) :
    (syncPendingUpdates s ok remoteData cached).2 = s.pendingUpdates := by
  unfold syncPendingUpdates
  by_cases h : s.pendingUpdates.length = 0
  · simp [h, List.length_eq_zero.mp h]
  · by_cases h2 : (collectFailed ok 0 s.pendingUpdates).length = 0 <;> simp [h, h2]

/-! The claims. -/

/-- Claim C1: for a goal record with a non-null remote id, every offline
increment or decrement appends exactly one pending update carrying the
absolute local current computed at enqueue time; after reconnection, a
fully successful replay applies every queued update once, the last one
carries the final local value, and the queue ends empty. -/
theorem offline_actions_eventual_consistency
    (s : AppState) (id pid today : String) (now : Int) (incs : List ℚ)
    (r : Resolution) (remoteData cached : Option (List Resolution))
    (hne : incs ≠ [])
    (hoff : s.isOnline = false)
    (hq : s.pendingUpdates = [])
    (hfind : s.resolutions.find? (fun q => q.id == id) = some r)
    (hpid : r.notionPageId = some pid)
    (hpe : (pid == "") = false) :
    (applyOffline s id today now incs).pendingUpdates
        = enqueueTrace pid today now r.current incs
    ∧ (applyOffline s id today now incs).pendingUpdates.length = incs.length
    ∧ (∃ u r',
        (applyOffline s id today now incs).pendingUpdates.getLast? = some u
        ∧ (applyOffline s id today now incs).resolutions.find?
            (fun q => q.id == id) = some r'
        ∧ u.current = r'.current)
    ∧ (syncPendingUpdates (applyOffline s id today now incs) (fun _ => true)
        remoteData cached).2 = (applyOffline s id today now incs).pendingUpdates
    ∧ (syncPendingUpdates (applyOffline s id today now incs) (fun _ => true)
        remoteData cached).1.pendingUpdates = [] := by
  obtain ⟨hqueue, -, r', hfind', hcur, -⟩ :=
    applyOffline_spec incs s id pid today now r hoff hfind hpid hpe
  rw [hq] at hqueue
  simp only [List.nil_append] at hqueue
  refine ⟨hqueue, ?_, ?_, syncPendingUpdates_calls _ _ _ _,
    syncPendingUpdates_all_ok _ _ _⟩
  · rw [hqueue, enqueueTrace_length]
  · refine ⟨⟨pid, localAfter r.current incs, today, now⟩, r', ?_, hfind', ?_⟩
    · rw [hqueue, enqueueTrace_getLast? pid today now r.current incs hne]
    · simpa using hcur.symm

/-- Claim C1 witness: the sample offline record with actions +1, +1, -1. -/
theorem offline_actions_eventual_consistency_witness :
    (([(1 : ℚ), 1, -1] : List ℚ) ≠ [])
    ∧ sampleOffline.isOnline = false
    ∧ sampleOffline.pendingUpdates = []
    ∧ sampleOffline.resolutions.find? (fun q => q.id == "r1") = some sampleRes
    ∧ sampleRes.notionPageId = some "p1"
    ∧ (("p1" == "") = false)
    ∧ ((applyOffline sampleOffline "r1" "2026-01-08" 7 [1, 1, -1]).pendingUpdates
        = enqueueTrace "p1" "2026-01-08" 7 sampleRes.current [1, 1, -1]
      ∧ (applyOffline sampleOffline "r1" "2026-01-08" 7 [1, 1, -1]).pendingUpdates.length
        = ([(1 : ℚ), 1, -1] : List ℚ).length
      ∧ (∃ u r',
          (applyOffline sampleOffline "r1" "2026-01-08" 7 [1, 1, -1]).pendingUpdates.getLast?
            = some u
          ∧ (applyOffline sampleOffline "r1" "2026-01-08" 7 [1, 1, -1]).resolutions.find?
              (fun q => q.id == "r1") = some r'
          ∧ u.current = r'.current)
      ∧ (syncPendingUpdates (applyOffline sampleOffline "r1" "2026-01-08" 7 [1, 1, -1])
          (fun _ => true) none none).2
        = (applyOffline sampleOffline "r1" "2026-01-08" 7 [1, 1, -1]).pendingUpdates
      ∧ (syncPendingUpdates (applyOffline sampleOffline "r1" "2026-01-08" 7 [1, 1, -1])
          (fun _ => true) none none).1.pendingUpdates = []) :=
  ⟨by decide, by decide, by decide, by decide, by decide, by decide,
   offline_actions_eventual_consistency sampleOffline "r1" "p1" "2026-01-08" 7
     [1, 1, -1] sampleRes none none (by decide) (by decide) (by decide)
     (by decide) (by decide) (by decide)⟩

/-- Claim C2: a drain with at least one failed replay leaves exactly the
failed updates queued in their original relative order, reports status
error even though some updates may have succeeded, and replays every
originally queued update exactly once (successes are removed, not
re-applied). -/
theorem sync_drain_with_failures (s : AppState) (ok : Nat → Bool)
    (remoteData cached : Option (List Resolution)) (i : Nat)
    (hi : i < s.pendingUpdates.length) (hfail : ok i = false) :
    (syncPendingUpdates s ok remoteData cached).1.pendingUpdates
        = (s.pendingUpdates.enum.filter (fun p => !ok p.1)).map Prod.snd
    ∧ (syncPendingUpdates s ok remoteData cached).1.syncStatus = SyncStatus.error
    ∧ (syncPendingUpdates s ok remoteData cached).2 = s.pendingUpdates := by
  have hne : ¬s.pendingUpdates.length = 0 := by omega
  have hcf : collectFailed ok 0 s.pendingUpdates ≠ [] :=
    collectFailed_ne_nil ok 0 _ i hi (by simpa using hfail)
  have hlen : ¬(collectFailed ok 0 s.pendingUpdates).length = 0 := by
    simpa [List.length_eq_zero] using hcf
  have hpos : (collectFailed ok 0 s.pendingUpdates).length > 0 :=
    Nat.pos_of_ne_zero hlen
  unfold syncPendingUpdates
  rw [if_neg hne]
  simp only [hlen, if_false, hpos, if_true]
  exact ⟨collectFailed_eq_enumFrom ok 0 s.pendingUpdates, trivial, trivial⟩

/-- Claim C2 witness: a two-update queue where the second replay fails. -/
theorem sync_drain_with_failures_witness :
    (1 < sampleSyncState.pendingUpdates.length)
    ∧ ((fun n => n == 0) 1 = false)
    ∧ ((syncPendingUpdates sampleSyncState (fun n => n == 0) none none).1.pendingUpdates
        = (sampleSyncState.pendingUpdates.enum.filter
            (fun p => !(fun n => n == 0) p.1)).map Prod.snd
      ∧ (syncPendingUpdates sampleSyncState (fun n => n == 0) none
          none).1.syncStatus = SyncStatus.error
      ∧ (syncPendingUpdates sampleSyncState (fun n => n == 0) none none).2
        = sampleSyncState.pendingUpdates) :=
  ⟨by decide, by decide,
   sync_drain_with_failures sampleSyncState (fun n => n == 0) none none 1
     (by decide) (by decide)⟩

/-- Claim C3, code-bug evaluation: the service-worker replay path deletes a
queued update even when the PATCH resolves with a non-success status.
Draining a one-element queue against a remote that answers HTTP 500 ends
with an empty queue and a completed drain, although a 500 response is not
ok. -/
theorem syncResolutions_deletes_on_rejected_response :
    syncResolutions (fun _ => some { status := 500, body := "" })
        [{ id := 1, payload := "u" }] = ([], true)
    ∧ SWResponse.ok { status := 500, body := "" } = false := by
  decide

theorem updateProgress_local_only (s : AppState) (id : String) (i : ℚ)
    (today : String) (now : Int) (okb : Bool)
    (hall : ∀ r ∈ s.resolutions, r.notionPageId = none) :
    (updateProgress s id i today now okb).2 = none
    ∧ (updateProgress s id i today now okb).1.pendingUpdates = s.pendingUpdates
    ∧ ∀ r ∈ (updateProgress s id i today now okb).1.resolutions,
        r.notionPageId = none := by
  unfold updateProgress
  cases hf : s.resolutions.find? (fun q => q.id == id) with
  | none => exact ⟨rfl, rfl, hall⟩
  | some r =>
    have hr : r.notionPageId = none := hall r (List.mem_of_find?_eq_some hf)
    refine ⟨?_, ?_, ?_⟩
    · simp [hr]
    · simp only [hr]
      rfl
    · simp only [hr]
      intro q hq
      obtain ⟨a, ha, rfl⟩ := List.mem_map.mp hq
      by_cases h : (a.id == id) = true <;> simp [h, hall a ha]

theorem runActions_local_only (acts : List (String × ℚ × String × Int × Bool))
    (s : AppState) (hall : ∀ r ∈ s.resolutions, r.notionPageId = none) :
    (runActions s acts).2 = []
    ∧ (runActions s acts).1.pendingUpdates = s.pendingUpdates := by
  induction acts generalizing s with
  | nil => exact ⟨rfl, rfl⟩
  | cons a rest ih =>
    obtain ⟨hc, hq, hall2⟩ :=
      updateProgress_local_only s a.1 a.2.1 a.2.2.1 a.2.2.2.1 a.2.2.2.2 hall
    obtain ⟨ihc, ihq⟩ :=
      ih (updateProgress s a.1 a.2.1 a.2.2.1 a.2.2.2.1 a.2.2.2.2).1 hall2
    constructor
    · show (updateProgress s a.1 a.2.1 a.2.2.1 a.2.2.2.1 a.2.2.2.2).2.toList
          ++ (runActions (updateProgress s a.1 a.2.1 a.2.2.1 a.2.2.2.1
                a.2.2.2.2).1 rest).2 = []
      rw [hc, ihc]
      rfl
    · show (runActions (updateProgress s a.1 a.2.1 a.2.2.1 a.2.2.2.1
          a.2.2.2.2).1 rest).1.pendingUpdates = s.pendingUpdates
      rw [ihq, hq]

theorem fetchResolutions_demo (s : AppState)
    (remoteData cached : Option (List Resolution))
    (hon : s.isOnline = true)
    (hremote : remoteData = none ∨ remoteData = some [])
    (hcached : cached = none ∨ cached = some []) :
    fetchResolutions s remoteData cached
      = { s with
          resolutions := getDemoData
          syncStatus := SyncStatus.demo
          isLoading := false } := by
  rcases hremote with h1 | h1 <;> rcases hcached with h2 | h2 <;>
    subst h1 <;> subst h2 <;> simp [fetchResolutions, fetchFallback, hon]

/-- Claim C4: every increment or decrement stores a current clamped at
zero (decrementing a record at zero leaves it at zero), never clamps it to
the target for storage, and only the displayed percentage is capped at one
hundred. -/
theorem mutation_current_clamping (s : AppState) (id : String) (i : ℚ)
    (today : String) (now : Int) (okb : Bool) (r : Resolution)
    (hfind : s.resolutions.find? (fun q => q.id == id) = some r) :
    ∃ r', (updateProgress s id i today now okb).1.resolutions.find?
            (fun q => q.id == id) = some r'
      ∧ 0 ≤ r'.current
      ∧ (r.current = 0 ∧ i = -1 → r'.current = 0)
      ∧ (r.target < r.current + i → r.target < r'.current)
      ∧ getProgress r' ≤ 100 := by
  refine ⟨{ r with current := max 0 (r.current + i), lastCheckin := today },
    ?_, ?_, ?_, ?_, ?_⟩
  · rw [updateProgress_resolutions_eq s id today now okb i r hfind]
    exact applyLocalMutation_find? s id _ today r hfind
  · exact le_max_left 0 _
  · rintro ⟨h0, hi⟩
    show max 0 (r.current + i) = 0
    rw [h0, hi]
    exact max_eq_left (by norm_num)
  · intro h
    exact lt_of_lt_of_le h (le_max_right _ _)
  · exact min_le_right _ _

/-- Claim C4 witness: incrementing the sample record past its target. -/
theorem mutation_current_clamping_witness :
    sampleOnline.resolutions.find? (fun q => q.id == "r1") = some sampleRes
    ∧ ∃ r', (updateProgress sampleOnline "r1" 9 "2026-01-08" 0 true).1.resolutions.find?
            (fun q => q.id == "r1") = some r'
      ∧ 0 ≤ r'.current
      ∧ (sampleRes.current = 0 ∧ (9 : ℚ) = -1 → r'.current = 0)
      ∧ (sampleRes.target < sampleRes.current + 9 → sampleRes.target < r'.current)
      ∧ getProgress r' ≤ 100 :=
  ⟨by decide,
   mutation_current_clamping sampleOnline "r1" 9 "2026-01-08" 0 true sampleRes
     (by decide)⟩

/-- Claim C5: when the remote list is empty or the call failed and the
cached collection is missing or empty, the startup fetch ends with status
demo showing exactly the five placeholder records, none of which carries a
remote id, and no subsequent mutation sequence ever emits a remote call or
enqueues a pending update. -/
theorem demo_fallback_isolation (s : AppState)
    (remoteData cached : Option (List Resolution))
    (hon : s.isOnline = true)
    (hremote : remoteData = none ∨ remoteData = some [])
    (hcached : cached = none ∨ cached = some []) :
    (fetchResolutions s remoteData cached).syncStatus = SyncStatus.demo
    ∧ (fetchResolutions s remoteData cached).resolutions = getDemoData
    ∧ getDemoData.length = 5
    ∧ (∀ r ∈ getDemoData, r.notionPageId = none)
    ∧ ∀ acts : List (String × ℚ × String × Int × Bool),
        (runActions (fetchResolutions s remoteData cached) acts).2 = []
        ∧ (runActions (fetchResolutions s remoteData cached) acts).1.pendingUpdates
          = (fetchResolutions s remoteData cached).pendingUpdates := by
  have hfd := fetchResolutions_demo s remoteData cached hon hremote hcached
  rw [hfd]
  have hdemo : ∀ r ∈ getDemoData, r.notionPageId = none := by decide
  refine ⟨rfl, rfl, rfl, hdemo, ?_⟩
  intro acts
  exact runActions_local_only acts _ hdemo

/-- Claim C5 witness: an online first run where the remote list fails and
the cache is empty. -/
theorem demo_fallback_isolation_witness :
    sampleOnline.isOnline = true
    ∧ ((none : Option (List Resolution)) = none ∨
        (none : Option (List Resolution)) = some [])
    ∧ ((fetchResolutions sampleOnline none none).syncStatus = SyncStatus.demo
      ∧ (fetchResolutions sampleOnline none none).resolutions = getDemoData
      ∧ getDemoData.length = 5
      ∧ (∀ r ∈ getDemoData, r.notionPageId = none)
      ∧ ∀ acts : List (String × ℚ × String × Int × Bool),
          (runActions (fetchResolutions sampleOnline none none) acts).2 = []
          ∧ (runActions (fetchResolutions sampleOnline none none) acts).1.pendingUpdates
            = (fetchResolutions sampleOnline none none).pendingUpdates) :=
  ⟨by decide, Or.inl rfl,
   demo_fallback_isolation sampleOnline none none (by decide) (Or.inl rfl)
     (Or.inl rfl)⟩

/-- Claim C6: a GET whose path starts with a known API endpoint always
routes to network-first, whatever its extension or accept header; a
non-GET request gets no strategy at all. -/
theorem fetch_routing_api_and_nonget (method path : String)
    (accept : Option String) :
    (method ≠ "GET" → routeRequest method path accept = none)
    ∧ (API_ENDPOINTS.any (fun e => strStartsWith path e) = true →
        routeRequest "GET" path accept = some Strategy.networkFirst) := by
  constructor
  · intro h
    unfold routeRequest
    have hb : (method != "GET") = true := by simpa [bne_iff_ne] using h
    rw [if_pos hb]
  · intro h
    unfold routeRequest
    rw [if_neg (by simp), if_pos h]

/-- Claim C6 witness: a POST passes through, and a GET under the API
prefix with an image extension and an HTML accept header still routes
network-first. -/
theorem fetch_routing_api_and_nonget_witness :
    ("POST" ≠ "GET" ∧ routeRequest "POST" "/api/resolutions" none = none)
    ∧ (API_ENDPOINTS.any (fun e => strStartsWith "/api/resolutions/export.png" e)
        = true
      ∧ routeRequest "GET" "/api/resolutions/export.png" (some "text/html")
        = some Strategy.networkFirst) :=
  ⟨⟨by decide,
    (fetch_routing_api_and_nonget "POST" "/api/resolutions" none).1 (by decide)⟩,
   ⟨by decide,
    (fetch_routing_api_and_nonget "GET" "/api/resolutions/export.png"
      (some "text/html")).2 (by decide)⟩⟩

/-- Claim C7 counterexample: with only the static manifest cached, a
failed HTML navigation yields no response at all: the offline page is not
among the precached assets, so the claimed dedicated offline document is
not delivered. -/
theorem networkFirst_html_offline_counterexample :
    STATIC_ASSETS.contains "/offline.html" = false
    ∧ (networkFirst { url := "/dashboard", accept := some "text/html" } none
        seededStatic).1 = none := by
  decide

/-- Claim C7 amended: under network-first with a failed fetch and no cache
entry for the request, an HTML request is answered with whatever the cache
holds for the offline page URL — possibly nothing, as that page is never
precached — while a non-HTML request gets a synthetic JSON body with
status 503; the cache is left untouched. -/
theorem networkFirst_offline_fallback (req : SWRequest) (store : CacheStorage)
    (hmiss : cachesMatch store req.url = none) :
    (acceptsHtml req.accept = true →
      (networkFirst req none store).1 = cachesMatch store "/offline.html")
    ∧ (acceptsHtml req.accept = false →
      (networkFirst req none store).1
        = some { status := 503, body := offlineJsonBody })
    ∧ (networkFirst req none store).2 = store := by
  unfold networkFirst
  simp only [hmiss]
  by_cases h : acceptsHtml req.accept = true
  · refine ⟨fun _ => ?_, fun hfalse => ?_, ?_⟩
    · simp [h]
    · rw [h] at hfalse
      cases hfalse
    · simp [h]
  · refine ⟨fun htrue => absurd htrue h, fun _ => ?_, ?_⟩
    · simp [h]
    · simp [h]

/-- Claim C7 witness: a JSON request with an empty cache gets the
synthetic 503 body. -/
theorem networkFirst_offline_fallback_witness :
    cachesMatch [] "/data.json" = none
    ∧ ((acceptsHtml (none : Option String) = true →
        (networkFirst { url := "/data.json", accept := none } none []).1
          = cachesMatch [] "/offline.html")
      ∧ (acceptsHtml (none : Option String) = false →
        (networkFirst { url := "/data.json", accept := none } none []).1
          = some { status := 503, body := offlineJsonBody })
      ∧ (networkFirst { url := "/data.json", accept := none } none []).2 = []) :=
  ⟨rfl,
   networkFirst_offline_fallback { url := "/data.json", accept := none } [] rfl⟩

theorem activateCleanup_other (store : CacheStorage) (name : String)
    (h1 : ¬name = STATIC_CACHE) (h2 : ¬name = DYNAMIC_CACHE) :
    cachesGet (activateCleanup store) name = none := by
  unfold cachesGet activateCleanup
  induction store with
  | nil => rfl
  | cons c rest ih =>
    by_cases hk : (c.1 == STATIC_CACHE || c.1 == DYNAMIC_CACHE) = true
    · rw [@List.filter_cons_of_pos _ (fun e => e.1 == STATIC_CACHE || e.1 == DYNAMIC_CACHE) c rest hk]
      have hc : ¬(c.1 == name) = true := by
        intro hcn
        have hce : c.1 = name := by simpa using hcn
        rcases (show c.1 = STATIC_CACHE ∨ c.1 = DYNAMIC_CACHE by
          simpa using hk) with h | h
        · exact h1 (hce ▸ h)
        · exact h2 (hce ▸ h)
      rw [@List.find?_cons_of_neg _ (fun e => e.1 == name) c _ hc]
      exact ih
    · rw [@List.filter_cons_of_neg _ (fun e => e.1 == STATIC_CACHE || e.1 == DYNAMIC_CACHE) c rest hk]
      exact ih

theorem activateCleanup_current (store : CacheStorage) (target : String)
    (ht : target = STATIC_CACHE ∨ target = DYNAMIC_CACHE) :
    cachesGet (activateCleanup store) target = cachesGet store target := by
  unfold cachesGet activateCleanup
  induction store with
  | nil => rfl
  | cons c rest ih =>
    by_cases hb : (c.1 == target) = true
    · have hk : (c.1 == STATIC_CACHE || c.1 == DYNAMIC_CACHE) = true := by
        have : c.1 = target := by simpa using hb
        rcases ht with h | h <;> simp [this, h]
      rw [@List.filter_cons_of_pos _ (fun e => e.1 == STATIC_CACHE || e.1 == DYNAMIC_CACHE) c rest hk]
      rw [@List.find?_cons_of_pos _ (fun e => e.1 == target) c _ hb]
      rw [@List.find?_cons_of_pos _ (fun e => e.1 == target) c _ hb]
    · by_cases hk : (c.1 == STATIC_CACHE || c.1 == DYNAMIC_CACHE) = true
      · rw [@List.filter_cons_of_pos _ (fun e => e.1 == STATIC_CACHE || e.1 == DYNAMIC_CACHE) c rest hk]
        rw [@List.find?_cons_of_neg _ (fun e => e.1 == target) c _ hb]
        rw [@List.find?_cons_of_neg _ (fun e => e.1 == target) c _ hb]
        exact ih
      · rw [@List.filter_cons_of_neg _ (fun e => e.1 == STATIC_CACHE || e.1 == DYNAMIC_CACHE) c rest hk]
        rw [@List.find?_cons_of_neg _ (fun e => e.1 == target) c _ hb]
        exact ih

/-- Claim C8: after an activation cycle every cache generation other than
the current static and dynamic ones is gone entirely, and those two are
left untouched. -/
theorem activation_purges_stale_generations (store : CacheStorage)
    (name : String) (h1 : name ≠ STATIC_CACHE) (h2 : name ≠ DYNAMIC_CACHE) :
    cachesGet (activateCleanup store) name = none
    ∧ cachesGet (activateCleanup store) STATIC_CACHE
      = cachesGet store STATIC_CACHE
    ∧ cachesGet (activateCleanup store) DYNAMIC_CACHE
      = cachesGet store DYNAMIC_CACHE :=
  ⟨activateCleanup_other store name h1 h2,
   activateCleanup_current store _ (Or.inl rfl),
   activateCleanup_current store _ (Or.inr rfl)⟩

/-- Claim C8 witness: a store holding a superseded static-v0 generation
next to the two current ones. -/
theorem activation_purges_stale_generations_witness :
    ("static-v0" ≠ STATIC_CACHE ∧ "static-v0" ≠ DYNAMIC_CACHE)
    ∧ (cachesGet (activateCleanup sampleStore) "static-v0" = none
      ∧ cachesGet (activateCleanup sampleStore) STATIC_CACHE
        = cachesGet sampleStore STATIC_CACHE
      ∧ cachesGet (activateCleanup sampleStore) DYNAMIC_CACHE
        = cachesGet sampleStore DYNAMIC_CACHE) :=
  ⟨⟨by decide, by decide⟩,
   activation_purges_stale_generations sampleStore "static-v0" (by decide)
     (by decide)⟩

theorem updateProgress_eval (s : AppState) (id pid today : String) (now : Int)
    (i : ℚ) (okb : Bool) (r : Resolution)
    (hfind : s.resolutions.find? (fun q => q.id == id) = some r)
    (hpid : r.notionPageId = some pid) (hpe : (pid == "") = false) :
    updateProgress s id i today now okb
      = if s.isOnline then
          ({ applyLocalMutation s id (max 0 (r.current + i)) today with
             syncStatus := (if okb then SyncStatus.synced else SyncStatus.error) },
           some { pageId := pid, current := max 0 (r.current + i),
                  lastCheckin := today })
        else
          ({ applyLocalMutation s id (max 0 (r.current + i)) today with
             pendingUpdates := s.pendingUpdates ++
               [{ pageId := pid, current := max 0 (r.current + i),
                  lastCheckin := today, timestamp := now }]
             syncStatus := SyncStatus.offline },
           none) := by
  unfold updateProgress
  simp only [hfind, hpid, hpe]
  cases hon : s.isOnline <;> simp [hon, applyLocalMutation]

/-- Claim C9 counterexample: an online mutation whose remote call fails is
not recovered by queueing — on the sample online state the PATCH for the
mutated fields fails, yet the pending queue stays empty and only the sync
status reports the failure. -/
theorem online_failure_not_queued_counterexample :
    ((updateProgress sampleOnline "r1" 1 "2026-01-08" 0 false).2.map
        (fun c => c.pageId)) = some "p1"
    ∧ (updateProgress sampleOnline "r1" 1 "2026-01-08" 0 false).1.pendingUpdates
        = []
    ∧ (updateProgress sampleOnline "r1" 1 "2026-01-08" 0 false).1.syncStatus
        = SyncStatus.error := by
  decide

/-- Claim C9 amended: a mutation on a record with a non-null remote id
made while the connectivity flag is false is recovered by queueing a
pending update with the mutated fields; made while online with a failing
remote call, nothing is queued and the failure is surfaced only as sync
status error. -/
theorem mutation_failure_paths (s : AppState) (id pid today : String)
    (now : Int) (i : ℚ) (r : Resolution)
    (hfind : s.resolutions.find? (fun q => q.id == id) = some r)
    (hpid : r.notionPageId = some pid)
    (hpe : (pid == "") = false) :
    (s.isOnline = false →
      (updateProgress s id i today now false).1.pendingUpdates
        = s.pendingUpdates ++
          [{ pageId := pid, current := max 0 (r.current + i),
             lastCheckin := today, timestamp := now }]
      ∧ (updateProgress s id i today now false).1.syncStatus = SyncStatus.offline
      ∧ (updateProgress s id i today now false).2 = none)
    ∧ (s.isOnline = true →
      (updateProgress s id i today now false).1.pendingUpdates
        = s.pendingUpdates
      ∧ (updateProgress s id i today now false).1.syncStatus = SyncStatus.error
      ∧ (updateProgress s id i today now false).2
        = some { pageId := pid, current := max 0 (r.current + i),
                 lastCheckin := today }) := by
  have he := updateProgress_eval s id pid today now i false r hfind hpid hpe
  constructor
  · intro hoff
    rw [he, hoff]
    exact ⟨rfl, rfl, rfl⟩
  · intro hon
    rw [he, hon]
    exact ⟨rfl, rfl, rfl⟩

/-- Claim C9 witness: the sample record mutated once offline and once
online with a failing remote call. -/
theorem mutation_failure_paths_witness :
    (sampleOffline.isOnline = false
      ∧ (updateProgress sampleOffline "r1" 1 "2026-01-08" 7 false).1.pendingUpdates
        = sampleOffline.pendingUpdates ++
          [{ pageId := "p1", current := max 0 (sampleRes.current + 1),
             lastCheckin := "2026-01-08", timestamp := 7 }]
      ∧ (updateProgress sampleOffline "r1" 1 "2026-01-08" 7 false).1.syncStatus
        = SyncStatus.offline
      ∧ (updateProgress sampleOffline "r1" 1 "2026-01-08" 7 false).2 = none)
    ∧ (sampleOnline.isOnline = true
      ∧ (updateProgress sampleOnline "r1" 1 "2026-01-08" 7 false).1.pendingUpdates
        = sampleOnline.pendingUpdates
      ∧ (updateProgress sampleOnline "r1" 1 "2026-01-08" 7 false).1.syncStatus
        = SyncStatus.error
      ∧ (updateProgress sampleOnline "r1" 1 "2026-01-08" 7 false).2
        = some { pageId := "p1", current := max 0 (sampleRes.current + 1),
                 lastCheckin := "2026-01-08" }) :=
  ⟨⟨by decide,
    (mutation_failure_paths sampleOffline "r1" "p1" "2026-01-08" 7 1 sampleRes
      (by decide) (by decide) (by decide)).1 (by decide)⟩,
   ⟨by decide,
    (mutation_failure_paths sampleOnline "r1" "p1" "2026-01-08" 7 1 sampleRes
      (by decide) (by decide) (by decide)).2 (by decide)⟩⟩

/-- Claim C10: the resolutions mirror fires only for a non-empty list — a
transition to the empty list leaves the previously stored collection in
place — while the pending-update mirror fires on every change, including
the empty queue. -/
theorem storage_mirroring_frame (st : LocalStore) (prev : List Resolution)
    (hprev : st.resolutions = some prev) :
    (mirrorResolutions [] st).resolutions = some prev
    ∧ (∀ rs : List Resolution, rs ≠ [] →
        (mirrorResolutions rs st).resolutions = some rs)
    ∧ (∀ q : List PendingUpdate,
        (mirrorPendingUpdates q st).pendingUpdates = some q)
    ∧ (mirrorPendingUpdates [] st).pendingUpdates = some [] := by
  refine ⟨?_, ?_, fun q => rfl, rfl⟩
  · simpa [mirrorResolutions] using hprev
  · intro rs hrs
    have hpos : rs.length > 0 := List.length_pos.mpr hrs
    simp [mirrorResolutions, hpos]

/-- Claim C10 witness: the sample durable store and the sample record
collection. -/
theorem storage_mirroring_frame_witness :
    sampleLocalStore.resolutions = some [sampleRes]
    ∧ ((mirrorResolutions [] sampleLocalStore).resolutions = some [sampleRes]
      ∧ (∀ rs : List Resolution, rs ≠ [] →
          (mirrorResolutions rs sampleLocalStore).resolutions = some rs)
      ∧ (∀ q : List PendingUpdate,
          (mirrorPendingUpdates q sampleLocalStore).pendingUpdates = some q)
      ∧ (mirrorPendingUpdates [] sampleLocalStore).pendingUpdates = some []) :=
  ⟨by decide, storage_mirroring_frame sampleLocalStore [sampleRes] (by decide)⟩

end ResTracker
